import Mathlib

set_option maxRecDepth 200000

/-!
Shallow embedding of the LinkedIn profile scraper (`src/app.py`).

Python strings are modelled as lists of characters (`Str := List Char`);
every Python string primitive used by the source (`replace`, `split`,
`strip`, `lower`, `' '.join(s.split())`, slicing, the `in` operator and
the one honorific regex) is given a structurally recursive Lean
definition so that every function of the embedding evaluates inside the
kernel.  The two classes of the source are embedded as:

* `LinkedinScraper.extract_profile_info` and its helpers — the
  `LinkedInProfileExtractor` static methods;
* `LinkedinScraper.search` / `LinkedinScraper.search_loop` — the
  pagination loop of `GoogleSearchAPI.search`, with the HTTP layer
  abstracted as an oracle `Nat → ApiResult α` (one outcome per page:
  transport error, JSON decode error, or a decoded response) and the
  observable effects (progress-callback invocations, inter-page sleeps)
  reified as a trace of `Event`s.
-/

namespace LinkedinScraper

/-- A Python string, as its sequence of code points. -/
abbrev Str := List Char

/-- Coerce a Lean string literal to the embedding's string type. -/
def str (s : String) : Str := s.data

/-- `c.isWhitespace`, the character class used by Python's `str.strip`,
`str.split()` and the regex class `\s` (ASCII inputs). -/
def isWs (c : Char) : Bool := c.isWhitespace

/-- Fueled worker for `pyReplace`; fuel `s.length` suffices because each
step consumes at least one character. -/
def pyReplaceAux (old new : Str) : Nat → Str → Str
  | 0, s => s
  | fuel+1, s =>
    match s with
    | [] => []
    | c :: rest =>
      if old ≠ [] ∧ old.isPrefixOf s then new ++ pyReplaceAux old new fuel (s.drop old.length)
      else c :: pyReplaceAux old new fuel rest

/-- Python `s.replace(old, new)`: replace every non-overlapping occurrence
of `old`, scanning left to right (the source only calls it with non-empty
`old`). -/
def pyReplace (s old new : Str) : Str := pyReplaceAux old new s.length s

/-- Fueled worker for `pySplitOn`; `cur` is the current segment, reversed. -/
def pySplitOnAux (sep : Str) : Nat → Str → Str → List Str
  | 0, s, cur => [cur.reverse ++ s]
  | fuel+1, s, cur =>
    match s with
    | [] => [cur.reverse]
    | c :: rest =>
      if sep.isPrefixOf s then cur.reverse :: pySplitOnAux sep fuel (s.drop sep.length) []
      else pySplitOnAux sep fuel rest (c :: cur)

/-- Python `s.split(sep)` with an explicit separator: split at each
non-overlapping occurrence of `sep`, scanning left to right; the result is
never empty and `"".split(sep) == [""]`. -/
def pySplitOn (s sep : Str) : List Str :=
  if sep = [] then [s] else pySplitOnAux sep s.length s []

/-- Worker for `pyWords`; `acc` is the current word, reversed. -/
def pyWordsAux : Str → Str → List Str
  | [], acc => if acc = [] then [] else [acc.reverse]
  | c :: rest, acc =>
    if isWs c then (if acc = [] then pyWordsAux rest [] else acc.reverse :: pyWordsAux rest [])
    else pyWordsAux rest (c :: acc)

/-- Python `s.split()` (no separator): the maximal whitespace-free words
of `s`, with no empty words. -/
def pyWords (s : Str) : List Str := pyWordsAux s []

/-- Python `sep.join(parts)`. -/
def pyIntercalate (sep : Str) : List Str → Str
  | [] => []
  | [w] => w
  | w :: ws => w ++ sep ++ pyIntercalate sep ws

/-- Python `' '.join(s.split())`: collapse every whitespace run to a
single space and trim both ends. -/
def pyCollapseWs (s : Str) : Str := pyIntercalate (str " ") (pyWords s)

/-- Python `s.strip()`: drop leading and trailing whitespace. -/
def pyStrip (s : Str) : Str := ((s.dropWhile isWs).reverse.dropWhile isWs).reverse

/-- Python `s.lower()` (ASCII inputs). -/
def pyLower (s : Str) : Str := s.map Char.toLower

/-- Python `sub in s`: substring membership. -/
def pyContains (s sub : Str) : Bool :=
  (List.range (s.length + 1)).any (fun i => sub.isPrefixOf (s.drop i))

/-- One alternative of the honorific regex after its literal word: the
regex continues with `\.?\s+`, so the match succeeds with the greedy
optional dot when a dot is followed by whitespace, else (backtracking to
the empty dot) when whitespace follows directly; the whole whitespace run
is consumed.  Returns the remainder of the string on success. -/
def honorificTail (rest : Str) : Option Str :=
  if (str ".").isPrefixOf rest then
    let r := rest.drop 1
    let r2 := r.dropWhile isWs
    if r2.length < r.length then some r2 else none
  else
    let r2 := rest.dropWhile isWs
    if r2.length < rest.length then some r2 else none

/-- The alternatives of the honorific regex
`^(Dr\.?|Mr\.?|Ms\.?|Mrs\.?)\s+`, in the regex's left-to-right order. -/
def honorifics : List Str := [str "Dr", str "Mr", str "Ms", str "Mrs"]

/-- Python `re.sub(r'^(Dr\.?|Mr\.?|Ms\.?|Mrs\.?)\s+', '', name)`:
remove one leading honorific (with optional dot and its trailing
whitespace run) if the anchored regex matches, else return the string
unchanged. -/
def stripHonorific (name : Str) : Str :=
  match honorifics.findSome? (fun p =>
      if p.isPrefixOf name then honorificTail (name.drop p.length) else none) with
  | some r => r
  | none => name

/-- `LinkedInProfileExtractor._extract_name_from_title` (src/app.py
lines 55-72): sentinel for an empty title, else remove every
`" | LinkedIn"`, split on `" - "`, strip the first part and remove a
leading honorific. -/
def extract_name_from_title (title : Str) : Str :=
  if title = [] then str "N/A"
  else
    let t := pyReplace title (str " | LinkedIn") []
    match pySplitOn t (str " - ") with
    | p :: _ => stripHonorific (pyStrip p)
    | [] => pyStrip t

/-- The keyword list of `_extract_title_from_content` (src/app.py
lines 91-94). -/
def titleKeywords : List Str :=
  [str "manager", str "director", str "engineer", str "analyst", str "specialist",
   str "coordinator", str "executive", str "consultant", str "senior", str "lead"]

/-- `LinkedInProfileExtractor._extract_title_from_content` (src/app.py
lines 74-99): if the title contains `" - "` and its split has a second
part, use that part with `" | LinkedIn"` removed and whitespace stripped,
when non-empty; else the first `" · "`-segment of the snippet whose
lowercasing contains a job keyword; else the stripped text before the
snippet's first period; else the sentinel. -/
def extract_title_from_content (title snippet : Str) : Str :=
  let fromTitle : Option Str :=
    if pyContains title (str " - ") then
      match pySplitOn title (str " - ") with
      | _ :: p1 :: _ =>
        let professional_title := pyStrip (pyReplace p1 (str " | LinkedIn") [])
        if professional_title ≠ [] then some professional_title else none
      | _ => none
    else none
  match fromTitle with
  | some t => t
  | none =>
    let snippet_lines := (pySplitOn snippet (str " · ")).map pyStrip
    match snippet_lines.find? (fun line =>
        titleKeywords.any (fun kw => pyContains (pyLower line) kw)) with
    | some line => line
    | none =>
      let first_line := if snippet ≠ [] then pyStrip ((pySplitOn snippet (str ".")).headD []) else []
      if first_line ≠ [] then first_line else str "N/A"

/-- One entry of `pagemap.cse_image`; `src` is `none` when the `src` key
is absent. -/
structure CseImage where
  src : Option Str
deriving DecidableEq

/-- One entry of `pagemap.metatags`; `og_image` is the value of the
`og:image` key, `none` when absent. -/
structure Metatag where
  og_image : Option Str
deriving DecidableEq

/-- The `pagemap` object of a raw search result, restricted to the keys
the source reads; a field is `none` when its key is absent. -/
structure Pagemap where
  cse_image : Option (List CseImage)
  metatags : Option (List Metatag)
deriving DecidableEq

/-- One raw search result, restricted to the keys the source reads; a
field is `none` when its key is absent. -/
structure SearchResult where
  title : Option Str
  snippet : Option Str
  link : Option Str
  pagemap : Option Pagemap
deriving DecidableEq

/-- `LinkedInProfileExtractor._extract_image_url` (src/app.py
lines 101-119): if the `cse_image` list is present and non-empty, its
first entry's `src` (empty string when the key is absent); else if
`metatags` is present and non-empty, its first entry's `og:image` (empty
string when absent); else the empty string.  An absent `pagemap` behaves
as the empty dict, for which both membership tests fail. -/
def extract_image_url (r : SearchResult) : Str :=
  match r.pagemap with
  | none => []
  | some pm =>
    match pm.cse_image with
    | some (img :: _) => img.src.getD []
    | _ =>
      match pm.metatags with
      | some (mt :: _) => mt.og_image.getD []
      | _ => []

/-- The entity-replacement and whitespace-normalisation steps of
`_clean_description` (src/app.py lines 128-131): replace `&amp;` by `&`
and `&nbsp;` by a space, then collapse whitespace. -/
def clean_snippet_core (snippet : Str) : Str :=
  pyCollapseWs (pyReplace (pyReplace snippet (str "&amp;") (str "&")) (str "&nbsp;") (str " "))

/-- `LinkedInProfileExtractor._clean_description` (src/app.py
lines 121-137): sentinel for an empty snippet; else normalise, and when
the normalised text exceeds 300 characters truncate to 300 and append
`"..."`. -/
def clean_description (snippet : Str) : Str :=
  if snippet = [] then str "N/A"
  else
    let s := clean_snippet_core snippet
    if s.length > 300 then s.take 300 ++ str "..." else s

/-- `LinkedInProfileExtractor.extract_profile_info` (src/app.py
lines 22-53), returning the Python dict as its ordered key/value list. -/
def extract_profile_info (r : SearchResult) : List (Str × Str) :=
  let title_text := r.title.getD []
  let name := extract_name_from_title title_text
  let professional_title := extract_title_from_content title_text (r.snippet.getD [])
  let image_url := extract_image_url r
  let description := clean_description (r.snippet.getD [])
  [(str "name", name),
   (str "title", professional_title),
   (str "link", r.link.getD []),
   (str "description", description),
   (str "image", image_url)]

/-- The decoded JSON payload of one Custom Search response, restricted to
what `GoogleSearchAPI.search` reads: `truthy` models the Python
truthiness of the decoded dict (the `if not results` test), `items` the
`items` key (`[]` when absent). -/
structure SearchResponse (α : Type) where
  truthy : Bool
  items : List α
deriving DecidableEq

/-- The outcome of the HTTP layer for one page: a transport error
(`requests.exceptions.RequestException`), a JSON decode error, or a
decoded response. -/
inductive ApiResult (α : Type) where
  | transportError
  | decodeError
  | success (response : SearchResponse α)
deriving DecidableEq

/-- `GoogleSearchAPI._make_request` (src/app.py lines 223-251) with the
HTTP call abstracted: both error classes are caught inside the method and
turned into `None`; a decoded payload is returned as is. -/
def make_request {α : Type} (r : ApiResult α) : Option (SearchResponse α) :=
  match r with
  | ApiResult.transportError => none
  | ApiResult.decodeError => none
  | ApiResult.success response => some response

/-- A raw item after the tagging loop of `GoogleSearchAPI.search`
(src/app.py lines 200-203): the item plus its `page_number` and
`result_index` keys. -/
structure TaggedItem (α : Type) where
  item : α
  page_number : Nat
  result_index : Nat
deriving DecidableEq

/-- An observable effect of the retrieval loop: one invocation of the
progress callback with its three arguments, or one `time.sleep` with the
page during whose iteration it happens and its duration. -/
inductive Event where
  | progress (pages_completed max_pages items_so_far : Nat)
  | sleep (page delay : Nat)
deriving DecidableEq

/-- The body of the `for page in range(1, max_pages + 1)` loop of
`GoogleSearchAPI.search` (src/app.py lines 177-221), over the list of
remaining page numbers.  Each iteration records the leading progress
invocation; a request error, a falsy decoded payload or an empty `items`
list ends the loop (`break`); otherwise the items are tagged with the
page number and with `len(all_results) + 1` — evaluated once, before the
`extend` — appended, and the optional courtesy sleep and the trailing
progress invocation are recorded. -/
def search_loop {α : Type} (api : Nat → ApiResult α) (max_pages delay_seconds : Nat) :
    List Nat → List (TaggedItem α) → List Event → List Event × List (TaggedItem α)
  | [], acc, events => (events, acc)
  | page :: rest, acc, events =>
    let ev1 := events ++ [Event.progress (page - 1) max_pages acc.length]
    match make_request (api page) with
    | none => (ev1, acc)
    | some results =>
      if results.truthy = false then (ev1, acc)
      else if results.items.isEmpty then (ev1, acc)
      else
        let tagged := results.items.map (fun it => TaggedItem.mk it page (acc.length + 1))
        let acc2 := acc ++ tagged
        let ev2 := if page < max_pages ∧ 0 < delay_seconds then ev1 ++ [Event.sleep page delay_seconds] else ev1
        search_loop api max_pages delay_seconds rest acc2 (ev2 ++ [Event.progress page max_pages acc2.length])

/-- `GoogleSearchAPI.search` (src/app.py lines 154-221): run the loop
over pages `1, …, max_pages`, returning the event trace and the
accumulated tagged results.  The function is total: no exception reaches
the caller. -/
def search {α : Type} (api : Nat → ApiResult α) (max_pages delay_seconds : Nat) :
    List Event × List (TaggedItem α) :=
  search_loop api max_pages delay_seconds (List.range' 1 max_pages) [] []

/-- Whether page `p`'s fetch lets the loop proceed: a decoded, truthy
response with a non-empty `items` list. -/
def pageOk {α : Type} (api : Nat → ApiResult α) (p : Nat) : Bool :=
  match api p with
  | ApiResult.success r => r.truthy && !r.items.isEmpty
  | _ => false

/-- Recogniser for progress events. -/
def isProgress : Event → Bool
  | Event.progress _ _ _ => true
  | _ => false

/-- Number of progress-callback invocations in a trace. -/
def progressCount (evs : List Event) : Nat := evs.countP isProgress

/-- The tagged accumulation the loop performs on successful pages:
starting from `acc`, append for `k` consecutive pages from `p` the items
`L q` of page `q`, each tagged with page number `q` and with one plus the
length of the accumulation before page `q`. -/
def expected_tagged {α : Type} (L : Nat → List α) (acc : List (TaggedItem α)) :
    Nat → Nat → List (TaggedItem α)
  | _, 0 => acc
  | p, k+1 =>
    expected_tagged L (acc ++ (L p).map (fun it => TaggedItem.mk it p (acc.length + 1))) (p + 1) k

/-- A 301-character all-whitespace snippet. -/
def spaces301 : Str := List.replicate 301 ' '

/-- A 301-character snippet with no whitespace and no entities. -/
def as301 : Str := List.replicate 301 'a'

/-- A raw result whose `cse_image` entry has an empty `src` and whose
`metatags` entry carries an `og:image`. -/
def emptySrcResult : SearchResult :=
  ⟨none, none, none, some ⟨some [⟨some []⟩], some [⟨some (str "http://a/b.png")⟩]⟩⟩

/-- A raw result with empty `title` and `snippet` but with a link and a
`cse_image` hint. -/
def emptyTextResult : SearchResult :=
  ⟨some [], some [], some (str "http://x"), some ⟨some [⟨some (str "http://y")⟩], none⟩⟩

/-- An oracle whose every page decodes to two items. -/
def twoItemApi : Nat → ApiResult Nat := fun _ => ApiResult.success ⟨true, [10, 20]⟩

/-- An oracle whose every page decodes to one item. -/
def okApi : Nat → ApiResult Nat := fun _ => ApiResult.success ⟨true, [7]⟩

/-- An oracle whose page 2 fails with a transport error and whose other
pages decode to one item. -/
def errorAt2 : Nat → ApiResult Nat :=
  fun n => if n = 2 then ApiResult.transportError else ApiResult.success ⟨true, [7]⟩

/-- `str.split` with a separator never returns an empty list (worker). -/
theorem pySplitOnAux_ne_nil (sep : Str) :
    ∀ (fuel : Nat) (s cur : Str), pySplitOnAux sep fuel s cur ≠ [] := by
  intro fuel
  induction fuel with
  | zero => intro s cur; simp [pySplitOnAux]
  | succ n ih =>
    intro s cur
    cases s with
    | nil => simp [pySplitOnAux]
    | cons c rest =>
      simp only [pySplitOnAux]
      split
      · simp
      · exact ih rest (c :: cur)

/-- `str.split` with a separator never returns an empty list, matching
Python (`"".split(sep) == [""]`). -/
theorem pySplitOn_ne_nil (s sep : Str) : pySplitOn s sep ≠ [] := by
  unfold pySplitOn
  split
  · simp
  · exact pySplitOnAux_ne_nil sep s.length s []

/-- C1: for a title containing the `" - "` delimiter the code keeps only
`parts[1]`, the segment between the first and the second occurrence of
`" - "`, not everything after the first occurrence: on the claim's own
example `"A - B - C | LinkedIn"` the extracted professional title is
`"B"`, not the `"B - C"` the claim (and the source's inline comment at
src/app.py line 81) announces. -/
theorem c1_title_second_segment :
    extract_title_from_content (str "A - B - C | LinkedIn") (str "") = str "B" ∧
    str "B" ≠ str "B - C" :=
  ⟨by decide, by decide⟩

/-- C3 (counterexample): a raw result whose `cse_image[0].src` is present
but empty and whose `metatags[0]` carries `og:image = "http://a/b.png"`
extracts the empty image, not the og:image value the claim requires. -/
theorem c3_counterexample :
    extract_image_url emptySrcResult = [] ∧ ([] : Str) ≠ str "http://a/b.png" :=
  ⟨by decide, by decide⟩

/-- C3 (amended): when the `cse_image` list is present and non-empty the
extracted image is its first entry's `src` value (empty when the key is
absent) regardless of whether that value is empty and regardless of
`metatags`; only when `cse_image` is absent or empty does the first
`metatags` entry's `og:image` apply; with neither available — or no
`pagemap` at all — the image is the empty string. -/
theorem c3_image_preference :
    (∀ (r : SearchResult) (pm : Pagemap) (img : CseImage) (l : List CseImage),
        r.pagemap = some pm → pm.cse_image = some (img :: l) →
        extract_image_url r = img.src.getD []) ∧
    (∀ (r : SearchResult) (pm : Pagemap) (mt : Metatag) (l : List Metatag),
        r.pagemap = some pm → (pm.cse_image = none ∨ pm.cse_image = some []) →
        pm.metatags = some (mt :: l) →
        extract_image_url r = mt.og_image.getD []) ∧
    (∀ (r : SearchResult) (pm : Pagemap),
        r.pagemap = some pm → (pm.cse_image = none ∨ pm.cse_image = some []) →
        (pm.metatags = none ∨ pm.metatags = some []) →
        extract_image_url r = []) ∧
    (∀ (r : SearchResult), r.pagemap = none → extract_image_url r = []) := by
  refine ⟨?_, ?_, ?_, ?_⟩
  · intro r pm img l hr hc
    simp [extract_image_url, hr, hc]
  · intro r pm mt l hr hc hm
    rcases hc with hc | hc <;> simp [extract_image_url, hr, hc, hm]
  · intro r pm hr hc hm
    rcases hc with hc | hc <;> rcases hm with hm | hm <;> simp [extract_image_url, hr, hc, hm]
  · intro r hr
    simp [extract_image_url, hr]

/-- C3 (witness): the three preference branches at concrete inputs. -/
theorem c3_witness :
    extract_image_url ⟨none, none, none, some ⟨some [⟨some (str "u")⟩], none⟩⟩ = str "u" ∧
    extract_image_url ⟨none, none, none, some ⟨none, some [⟨some (str "v")⟩]⟩⟩ = str "v" ∧
    extract_image_url ⟨none, none, none, none⟩ = [] :=
  ⟨c3_image_preference.1 _ ⟨some [⟨some (str "u")⟩], none⟩ ⟨some (str "u")⟩ [] rfl rfl,
   c3_image_preference.2.1 _ ⟨none, some [⟨some (str "v")⟩]⟩ ⟨some (str "v")⟩ [] rfl (Or.inl rfl) rfl,
   c3_image_preference.2.2.2 _ rfl⟩

/-- C4 (counterexample): a raw snippet of 301 space characters is longer
than 300 characters, yet its extracted description is the empty string of
length 0, not a 303-character string — the 300-character test in the code
applies to the cleaned snippet, not to the raw one. -/
theorem c4_counterexample :
    300 < spaces301.length ∧
    clean_description spaces301 = [] ∧ (clean_description spaces301).length ≠ 303 :=
  ⟨by decide, by decide, by decide⟩

/-- C4 (amended): for every raw snippet whose cleaned form (entities
replaced, whitespace collapsed and trimmed) is longer than 300
characters, the extracted description is the first 300 characters of the
cleaned snippet followed by the 3-character marker `"..."`, and has
length exactly 303. -/
theorem c4_truncation (s : Str) (h : 300 < (clean_snippet_core s).length) :
    clean_description s = (clean_snippet_core s).take 300 ++ str "..." ∧
    (clean_description s).length = 303 := by
  have hs : s ≠ [] := by
    intro he
    rw [he] at h
    have : clean_snippet_core [] = [] := rfl
    rw [this] at h
    simp at h
  have h1 : clean_description s = (clean_snippet_core s).take 300 ++ str "..." := by
    unfold clean_description
    rw [if_neg hs]
    simp only []
    rw [if_pos h]
  refine ⟨h1, ?_⟩
  rw [h1]
  have hdots : (str "...").length = 3 := rfl
  rw [List.length_append, List.length_take, hdots]
  omega

/-- C4 (witness): a 301-character snippet with no whitespace cleans to
itself and is truncated to exactly 303 characters. -/
theorem c4_witness :
    300 < (clean_snippet_core as301).length ∧
    (clean_description as301 = (clean_snippet_core as301).take 300 ++ str "..." ∧
     (clean_description as301).length = 303) :=
  ⟨by decide, c4_truncation as301 (by decide)⟩

/-- C5: for every raw search result — all sub-fields present, absent or
empty — `extract_profile_info` returns a record with exactly the five
keys `name`, `title`, `link`, `description`, `image`, in this order, each
carrying a string value. -/
theorem c5_five_fields (r : SearchResult) :
    (extract_profile_info r).map Prod.fst =
      [str "name", str "title", str "link", str "description", str "image"] := rfl

/-- C8 (counterexample): a raw result with empty `title` and `snippet`
but with a link of `"http://x"` and a `cse_image` hint extracts that link
and image, not the empty strings the claim asserts for every raw result
with empty title and snippet. -/
theorem c8_counterexample :
    extract_profile_info emptyTextResult =
      [(str "name", str "N/A"), (str "title", str "N/A"), (str "link", str "http://x"),
       (str "description", str "N/A"), (str "image", str "http://y")] ∧
    str "http://x" ≠ ([] : Str) :=
  ⟨by decide, by decide⟩

/-- C8 (amended): for every raw result whose `title` and `snippet` are
empty or absent, `name`, `title` and `description` are all the sentinel
`"N/A"`; when additionally the `link` is empty or absent and there is no
`pagemap`, `link` and `image` are the empty string. -/
theorem c8_empty_result (r : SearchResult)
    (ht : r.title.getD [] = []) (hs : r.snippet.getD [] = [])
    (hl : r.link.getD [] = []) (hp : r.pagemap = none) :
    extract_profile_info r =
      [(str "name", str "N/A"), (str "title", str "N/A"), (str "link", []),
       (str "description", str "N/A"), (str "image", [])] := by
  unfold extract_profile_info
  rw [ht, hs, hl]
  have hi : extract_image_url r = [] := by simp [extract_image_url, hp]
  rw [hi]
  decide

/-- C8 (witness): the amended claim at the fully-absent raw result. -/
theorem c8_witness :
    extract_profile_info ⟨none, none, none, none⟩ =
      [(str "name", str "N/A"), (str "title", str "N/A"), (str "link", []),
       (str "description", str "N/A"), (str "image", [])] :=
  c8_empty_result ⟨none, none, none, none⟩ rfl rfl rfl rfl

/-- C10: for every non-empty raw title whose content is exhausted by the
`" | LinkedIn"` removal and the `" - "` split — the stripped first split
segment is empty — the extracted name is the empty string, not the
sentinel `"N/A"` that is reserved for an empty raw title. -/
theorem c10_exhausted_title (t : Str) (hne : t ≠ [])
    (hex : pyStrip ((pySplitOn (pyReplace t (str " | LinkedIn") []) (str " - ")).headD []) = []) :
    extract_name_from_title t = [] ∧ extract_name_from_title t ≠ str "N/A" := by
  have hmain : extract_name_from_title t = [] := by
    unfold extract_name_from_title
    rw [if_neg hne]
    cases hsp : pySplitOn (pyReplace t (str " | LinkedIn") []) (str " - ") with
    | nil => exact absurd hsp (pySplitOn_ne_nil _ _)
    | cons p rest =>
      rw [hsp, List.headD_cons] at hex
      simp only [hsp, hex]
      decide
  exact ⟨hmain, by rw [hmain]; decide⟩

/-- C10 (witness): the title `" | LinkedIn"` is non-empty, is exhausted
by suffix removal and splitting, and extracts the empty name. -/
theorem c10_witness :
    extract_name_from_title (str " | LinkedIn") = [] ∧
    extract_name_from_title (str " | LinkedIn") ≠ str "N/A" :=
  c10_exhausted_title (str " | LinkedIn") (by decide) (by decide)

/-- A page that does not let the loop proceed breaks it after the leading
progress invocation, leaving the accumulation unchanged. -/
theorem search_loop_break {α : Type} (api : Nat → ApiResult α) (mp d page : Nat)
    (h : pageOk api page = false) (rest : List Nat) (acc : List (TaggedItem α)) (ev : List Event) :
    search_loop api mp d (page :: rest) acc ev =
      (ev ++ [Event.progress (page - 1) mp acc.length], acc) := by
  cases ha : api page with
  | transportError => simp [search_loop, make_request, ha]
  | decodeError => simp [search_loop, make_request, ha]
  | success r =>
    cases htr : r.truthy with
    | false => simp [search_loop, make_request, ha, htr]
    | true =>
      cases hie : r.items.isEmpty with
      | true => simp [search_loop, make_request, ha, htr, hie]
      | false => simp [pageOk, ha, htr, hie] at h

/-- A page that lets the loop proceed provides a decoded, truthy response
with non-empty items. -/
theorem pageOk_elim {α : Type} (api : Nat → ApiResult α) (p : Nat) (h : pageOk api p = true) :
    ∃ r, api p = ApiResult.success r ∧ r.truthy = true ∧ r.items.isEmpty = false := by
  unfold pageOk at h
  cases ha : api p with
  | transportError => rw [ha] at h; simp at h
  | decodeError => rw [ha] at h; simp at h
  | success r =>
    rw [ha] at h
    simp at h
    exact ⟨r, rfl, h.1, by simp [h.2]⟩

/-- The accumulated items of a run do not depend on `max_pages`,
`delay_seconds` or the event trace so far. -/
theorem search_loop_snd_ext {α : Type} (api : Nat → ApiResult α) (mp mp' d d' : Nat) :
    ∀ (pages : List Nat) (acc : List (TaggedItem α)) (ev ev' : List Event),
      (search_loop api mp d pages acc ev).2 = (search_loop api mp' d' pages acc ev').2 := by
  intro pages
  induction pages with
  | nil => intro acc ev ev'; rfl
  | cons page rest ih =>
    intro acc ev ev'
    cases hok : pageOk api page with
    | false => rw [search_loop_break api mp d page hok, search_loop_break api mp' d' page hok]
    | true =>
      obtain ⟨r, ha, htr, hne⟩ := pageOk_elim api page hok
      simp only [search_loop, make_request, ha, htr, hne]
      simp only [Bool.false_eq_true, if_false]
      exact ih _ _ _

/-- Once some page of a prefix breaks the loop, the pages after the
prefix are never visited. -/
theorem search_loop_append_break {α : Type} (api : Nat → ApiResult α) (mp d : Nat) :
    ∀ (xs : List Nat), xs.all (pageOk api) = false →
      ∀ (ys : List Nat) (acc : List (TaggedItem α)) (ev : List Event),
        search_loop api mp d (xs ++ ys) acc ev = search_loop api mp d xs acc ev := by
  intro xs
  induction xs with
  | nil => intro h; simp at h
  | cons x xs ih =>
    intro h ys acc ev
    cases hok : pageOk api x with
    | false =>
      rw [List.cons_append, search_loop_break api mp d x hok, search_loop_break api mp d x hok]
    | true =>
      rw [List.all_cons, hok, Bool.true_and] at h
      obtain ⟨r, ha, htr, hne⟩ := pageOk_elim api x hok
      rw [List.cons_append]
      simp only [search_loop, make_request, ha, htr, hne]
      simp only [Bool.false_eq_true, if_false]
      exact ih h ys _ _

/-- A run over a prefix of everywhere-proceeding pages continues into the
remaining pages from the prefix's accumulated state. -/
theorem search_loop_append_ok {α : Type} (api : Nat → ApiResult α) (mp d : Nat) :
    ∀ (xs : List Nat), xs.all (pageOk api) = true →
      ∀ (ys : List Nat) (acc : List (TaggedItem α)) (ev : List Event),
        search_loop api mp d (xs ++ ys) acc ev =
          search_loop api mp d ys (search_loop api mp d xs acc ev).2
            (search_loop api mp d xs acc ev).1 := by
  intro xs
  induction xs with
  | nil => intro h ys acc ev; rfl
  | cons x xs ih =>
    intro h ys acc ev
    rw [List.all_cons, Bool.and_eq_true] at h
    obtain ⟨r, ha, htr, hne⟩ := pageOk_elim api x h.1
    rw [List.cons_append]
    simp only [search_loop, make_request, ha, htr, hne]
    simp only [Bool.false_eq_true, if_false]
    exact ih h.2 ys _ _

/-- C6: whenever fetching page `p` (within bounds) raises a transport or
a decode error, the run returns exactly the items a run bounded to the
first `p - 1` pages returns — pagination stops at `p`, nothing from page
`p` onward is returned, and (the embedding being a total function) no
exception reaches the caller. -/
theorem c6_error_truncates {α : Type} (api : Nat → ApiResult α) (mp d p : Nat)
    (h1 : 1 ≤ p) (h2 : p ≤ mp)
    (herr : api p = ApiResult.transportError ∨ api p = ApiResult.decodeError) :
    (search api mp d).2 = (search api (p - 1) d).2 := by
  have herr' : pageOk api p = false := by
    unfold pageOk
    rcases herr with h | h <;> rw [h]
  have hsplit : List.range' 1 mp = List.range' 1 (p - 1) ++ (p :: List.range' (p + 1) (mp - p)) := by
    have h3 : p :: List.range' (p + 1) (mp - p) = List.range' p (mp - p + 1) := by
      rw [List.range'_succ]
    rw [h3]
    have h4 : List.range' 1 (p - 1) ++ List.range' (1 + (p - 1)) (mp - p + 1) =
        List.range' 1 ((mp - p + 1) + (p - 1)) := List.range'_append_1 1 (p - 1) (mp - p + 1)
    have h5 : 1 + (p - 1) = p := by omega
    have h6 : (mp - p + 1) + (p - 1) = mp := by omega
    rw [h5, h6] at h4
    exact h4.symm
  unfold search
  rw [hsplit]
  cases hall : (List.range' 1 (p - 1)).all (pageOk api) with
  | false =>
    rw [search_loop_append_break api mp d _ hall]
    exact search_loop_snd_ext api mp (p - 1) d d _ _ _ _
  | true =>
    rw [search_loop_append_ok api mp d _ hall]
    rw [search_loop_break api mp d p herr']
    exact search_loop_snd_ext api mp (p - 1) d d _ _ _ _

/-- C6 (witness): with a transport error at page 2, a 3-page run returns
the same items as a 1-page run. -/
theorem c6_witness : (search errorAt2 3 0).2 = (search errorAt2 1 0).2 :=
  c6_error_truncates errorAt2 3 0 2 (by decide) (by decide) (Or.inl rfl)

/-- Over everywhere-proceeding pages, every iteration adds exactly two
progress invocations to the trace. -/
theorem search_loop_progressCount {α : Type} (api : Nat → ApiResult α) (mp d : Nat) :
    ∀ (pages : List Nat), pages.all (pageOk api) = true →
      ∀ (acc : List (TaggedItem α)) (ev : List Event),
        progressCount (search_loop api mp d pages acc ev).1 =
          progressCount ev + 2 * pages.length := by
  intro pages
  induction pages with
  | nil => intro h acc ev; simp [search_loop]
  | cons x xs ih =>
    intro h acc ev
    rw [List.all_cons, Bool.and_eq_true] at h
    obtain ⟨r, ha, htr, hne⟩ := pageOk_elim api x h.1
    simp only [search_loop, make_request, ha, htr, hne]
    simp only [Bool.false_eq_true, if_false]
    rw [if_neg (fun hcontra => Bool.noConfusion hcontra)]
    rw [ih h.2]
    by_cases hc : x < mp ∧ 0 < d
    · rw [if_pos hc]
      simp [progressCount, List.countP_append, List.countP_cons, isProgress, List.length_cons]
      omega
    · rw [if_neg hc]
      simp [progressCount, List.countP_append, List.countP_cons, isProgress, List.length_cons]
      omega

/-- C7 (counterexample): a 1-page run whose page succeeds with a
non-empty item list invokes the progress callback exactly twice, not the
`2 * 1 + 1 = 3` times the claim requires. -/
theorem c7_counterexample :
    progressCount (search okApi 1 0).1 = 2 ∧ (2 : Nat) ≠ 2 * 1 + 1 :=
  ⟨by decide, by decide⟩

/-- C7 (amended): for every run of `n` pages that all succeed with
non-empty items, the progress callback is invoked exactly `2 * n` times —
once before and once after each page's fetch; the invocation before the
first page is the first of these, not an additional one. -/
theorem c7_progress_invocations {α : Type} (api : Nat → ApiResult α) (mp d : Nat)
    (h : ∀ q, 1 ≤ q → q ≤ mp → pageOk api q = true) :
    progressCount (search api mp d).1 = 2 * mp := by
  unfold search
  have hall : (List.range' 1 mp).all (pageOk api) = true := by
    rw [List.all_eq_true]
    intro q hq
    rw [List.mem_range'_1] at hq
    exact h q hq.1 (by omega)
  rw [search_loop_progressCount api mp d _ hall]
  simp [progressCount, List.length_range']

/-- C7 (witness): a fully successful 2-page run invokes the callback
exactly 4 times. -/
theorem c7_witness : progressCount (search okApi 2 0).1 = 2 * 2 :=
  c7_progress_invocations okApi 2 0 (fun _ _ _ => rfl)

/-- Any sleep event of a run's trace was emitted under the loop's guard:
during some page strictly before `max_pages`, with the configured
positive delay. -/
theorem search_loop_sleep_mem {α : Type} (api : Nat → ApiResult α) (mp d : Nat) :
    ∀ (pages : List Nat) (acc : List (TaggedItem α)) (ev : List Event) (p dd : Nat),
      Event.sleep p dd ∈ (search_loop api mp d pages acc ev).1 →
      Event.sleep p dd ∈ ev ∨ (p < mp ∧ dd = d ∧ 0 < d) := by
  intro pages
  induction pages with
  | nil => intro acc ev p dd h; exact Or.inl h
  | cons x xs ih =>
    intro acc ev p dd h
    cases hok : pageOk api x with
    | false =>
      rw [search_loop_break api mp d x hok] at h
      rcases List.mem_append.mp h with h | h
      · exact Or.inl h
      · simp at h
    | true =>
      obtain ⟨r, ha, htr, hne⟩ := pageOk_elim api x hok
      simp only [search_loop, make_request, ha, htr, hne] at h
      simp only [Bool.false_eq_true, if_false] at h
      rcases ih _ _ p dd h with h | h
      · rcases List.mem_append.mp h with h | h
        · by_cases hc : x < mp ∧ 0 < d
          · rw [if_pos hc] at h
            rcases List.mem_append.mp h with h | h
            · rcases List.mem_append.mp h with h | h
              · exact Or.inl h
              · simp at h
            · rw [List.mem_singleton] at h
              rw [Event.sleep.injEq] at h
              exact Or.inr ⟨h.1 ▸ hc.1, h.2, hc.2⟩
          · rw [if_neg hc] at h
            rcases List.mem_append.mp h with h | h
            · exact Or.inl h
            · simp at h
        · simp at h
      · exact Or.inr h

/-- C9: the inter-page suspension happens only during a page iteration
`p < maxPages` with the configured delay positive and equal to the slept
duration; hence a run with `delaySeconds = 0` never sleeps, and no sleep
follows the last page. -/
theorem c9_sleep_guard {α : Type} (api : Nat → ApiResult α) (mp d p dd : Nat)
    (h : Event.sleep p dd ∈ (search api mp d).1) :
    p < mp ∧ dd = d ∧ 0 < d := by
  rcases search_loop_sleep_mem api mp d _ _ _ p dd h with h | h
  · simp at h
  · exact h

/-- C9 (witness): a 2-page run with delay 3 does sleep during page 1, and
that sleep satisfies the guard — before the last page, with the
configured positive delay. -/
theorem c9_witness :
    Event.sleep 1 3 ∈ (search okApi 2 3).1 ∧ ((1 : Nat) < 2 ∧ (3 : Nat) = 3 ∧ (0 : Nat) < 3) :=
  ⟨by decide, c9_sleep_guard okApi 2 3 1 3 (by decide)⟩

/-- Over everywhere-succeeding pages with items `L q` on page `q`, the
loop accumulates exactly the `expected_tagged` sequence. -/
theorem search_loop_tagged {α : Type} (api : Nat → ApiResult α) (mp d : Nat) (L : Nat → List α) :
    ∀ (k p : Nat),
      (∀ q, p ≤ q → q < p + k → api q = ApiResult.success ⟨true, L q⟩ ∧ L q ≠ []) →
      ∀ (acc : List (TaggedItem α)) (ev : List Event),
        (search_loop api mp d (List.range' p k) acc ev).2 = expected_tagged L acc p k := by
  intro k
  induction k with
  | zero => intro p h acc ev; rfl
  | succ n ih =>
    intro p h acc ev
    have hp := h p (Nat.le_refl p) (by omega)
    have hne : (L p).isEmpty = false := by
      cases hLp : L p with
      | nil => exact absurd hLp hp.2
      | cons a l => rfl
    rw [List.range'_succ]
    simp only [search_loop, make_request, hp.1, hne]
    simp only [Bool.false_eq_true, if_false]
    rw [expected_tagged]
    exact ih (p + 1) (fun q h1 h2 => h q (by omega) (by omega)) _ _

/-- C2 (counterexample): a successful page of two items tags both with
`result_index = 1` — `len(all_results) + 1` is evaluated before the
`extend` and never changes inside the page's tagging loop — so the second
item of the output does not carry `result_index = 2` as the claim
requires. -/
theorem c2_counterexample :
    (search twoItemApi 1 0).2 =
      [TaggedItem.mk 10 1 1, TaggedItem.mk 20 1 1] ∧
    (search twoItemApi 1 0).2.map TaggedItem.result_index ≠ [1, 2] :=
  ⟨by decide, by decide⟩

/-- C2 (amended): for a run whose pages `1, …, maxPages` all succeed with
non-empty item lists `L q`, the output is the pages' items concatenated
in response order, each item of page `q` tagged with `page_number = q`
and with `result_index` equal to one plus the number of items accumulated
before page `q` — a per-page constant, not a per-item running index. -/
theorem c2_tagging {α : Type} (api : Nat → ApiResult α) (mp d : Nat) (L : Nat → List α)
    (h : ∀ q, 1 ≤ q → q ≤ mp → api q = ApiResult.success ⟨true, L q⟩ ∧ L q ≠ []) :
    (search api mp d).2 = expected_tagged L [] 1 mp := by
  unfold search
  exact search_loop_tagged api mp d L mp 1 (fun q h1 h2 => h q h1 (by omega)) [] []

/-- C2 (witness): the amended tagging on a concrete 1-page run of two
items. -/
theorem c2_witness : (search twoItemApi 1 0).2 = expected_tagged (fun _ => [10, 20]) [] 1 1 :=
  c2_tagging twoItemApi 1 0 (fun _ => [10, 20])
    (fun _ _ _ => ⟨rfl, fun hcontra => List.noConfusion hcontra⟩)

end LinkedinScraper
